import Mathlib

/-
Verification of the parallel task-execution engine in
src/fonduer/utils/udf.py (UDFRunner and UDF).

The Python code is shallowly embedded below:
  - the two sentinel strings UDF.TASK_DONE and UDF.QUEUE_CLOSED;
  - the acknowledgment drain loop of UDFRunner.apply_mt (lines 128-137),
    modelled as a recursive function over the stream of control-channel
    messages the Runner will receive;
  - the worker loop UDF.run (lines 174-191), modelled as a step function
    over the stream of input-channel events (an item, or a queue.Empty
    timeout) a worker observes, recording session operations (add_all,
    commit, close), control-channel puts, and input-channel re-pushes;
  - the orchestration of UDFRunner.apply / apply_st / apply_mt
    (lines 47-127), modelled as the ordered trace of observable events
    each call performs.
-/

/-- UDF.TASK_DONE, the acknowledgment token a worker puts on the output
(control) queue after each processed task. -/
def TASK_DONE : String := "done"

/-- UDF.QUEUE_CLOSED, the shutdown sentinel the Runner puts on the input
queue after all acknowledgments have been drained. -/
def QUEUE_CLOSED : String := "QUEUECLOSED"

/-- Outcome of the Runner drain loop of UDFRunner.apply_mt:
either the loop exits normally with its final counter and the messages it
never consumed, or it raises ValueError on a non-acknowledgment message
(carrying the offending message and the unconsumed remainder), or the
message stream is exhausted while the counter is still short of the total
(the Python loop would block on out_queue.get forever). -/
inductive DrainResult where
  | ok (count : Nat) (rest : List String)
  | protocolError (bad : String) (rest : List String)
  | blocked (count : Nat)
deriving DecidableEq, Repr

/-- The drain loop of UDFRunner.apply_mt:

    count_parsed = 0
    while count_parsed < total_count:
        y = out_queue.get()
        if y == UDF.TASK_DONE:
            count_parsed += 1
            ...progress bar update...
        else:
            raise ValueError("Got non-sentinal output.")

The argument list is the stream of messages out_queue.get will return,
in order; the progress-bar update has no effect on the counter. -/
def drain (total : Nat) : Nat → List String → DrainResult
  | count, [] =>
      if count < total then DrainResult.blocked count else DrainResult.ok count []
  | count, y :: rest =>
      if count < total then
        if y = TASK_DONE then drain total (count + 1) rest
        else DrainResult.protocolError y rest
      else DrainResult.ok count (y :: rest)

theorem drain_ok_characterization (total : Nat) :
    ∀ (msgs : List String) (count c : Nat) (rest : List String),
      count ≤ total →
      drain total count msgs = DrainResult.ok c rest →
      c = total ∧ msgs = List.replicate (total - count) TASK_DONE ++ rest := by
  intro msgs
  induction msgs with
  | nil =>
    intro count c rest hle h
    by_cases hlt : count < total
    · simp [drain, hlt] at h
    · have hct : count = total := Nat.le_antisymm hle (Nat.le_of_not_lt hlt)
      simp [drain, hlt] at h
      obtain ⟨hc, hr⟩ := h
      subst hc hct
      simp [hr]
  | cons y t ih =>
    intro count c rest hle h
    by_cases hlt : count < total
    · by_cases hy : y = TASK_DONE
      · simp [drain, hlt, hy] at h
        obtain ⟨hc, ht⟩ := ih (count + 1) c rest hlt h
        refine ⟨hc, ?_⟩
        have hsub : total - count = (total - (count + 1)) + 1 := by omega
        rw [hsub, List.replicate_succ, hy, ht]
        simp
      · simp [drain, hlt, hy] at h
    · simp [drain, hlt] at h
      have hct : count = total := Nat.le_antisymm hle (Nat.le_of_not_lt hlt)
      obtain ⟨hc, hr⟩ := h
      subst hc hct
      simp [hr]

/-- C1: in pooled execution the Runner progress counter starts at 0, is
incremented exactly once per acknowledgment received on the control
channel and in no other way, and a successful drain ends with the counter
equal to the input size N, having consumed exactly N acknowledgment
messages (the consumed portion of the stream is N copies of TASK_DONE). -/
theorem drain_success_counts (N : Nat) (msgs rest : List String) (c : Nat)
    (h : drain N 0 msgs = DrainResult.ok c rest) :
    c = N ∧ msgs = List.replicate N TASK_DONE ++ rest := by
  have hch := drain_ok_characterization N msgs 0 c rest (Nat.zero_le N) h
  simpa using hch

theorem drain_success_counts_witness :
    (2 : Nat) = 2 ∧
      [TASK_DONE, TASK_DONE] = List.replicate 2 TASK_DONE ++ [] :=
  drain_success_counts 2 [TASK_DONE, TASK_DONE] [] 2 (by decide)

/-- C3 counterexample: receiving the ShutdownToken QUEUE_CLOSED on the
control channel is itself a protocol error in the code: the drain loop of
UDFRunner.apply_mt raises ValueError on any message other than TASK_DONE,
including QUEUE_CLOSED, so the control-channel protocol does not admit the
ShutdownToken without error. -/
theorem shutdown_on_control_is_error :
    drain 1 0 [QUEUE_CLOSED] = DrainResult.protocolError QUEUE_CLOSED [] := by
  decide

theorem drain_error_not_taskdone (total : Nat) :
    ∀ (msgs : List String) (count : Nat) (b : String) (r : List String),
      drain total count msgs = DrainResult.protocolError b r → b ≠ TASK_DONE := by
  intro msgs
  induction msgs with
  | nil =>
    intro count b r h
    by_cases hlt : count < total <;> simp [drain, hlt] at h
  | cons y t ih =>
    intro count b r h
    by_cases hlt : count < total
    · by_cases hy : y = TASK_DONE
      · simp [drain, hlt, hy] at h
        exact ih (count + 1) b r h
      · simp [drain, hlt, hy] at h
        obtain ⟨hb, _⟩ := h
        subst hb
        exact hy
    · simp [drain, hlt] at h

/-- C3 amended: while the counter is below the total, the Runner control
loop admits exactly one value without error, the acknowledgment TASK_DONE
(on which it continues with the counter incremented); any other message,
the ShutdownToken QUEUE_CLOSED included, raises the fatal protocol
error. -/
theorem control_channel_single_admissible (total count : Nat) (y : String)
    (rest : List String) (h : count < total) :
    (drain total count (y :: rest) = DrainResult.protocolError y rest ↔ y ≠ TASK_DONE)
      ∧ drain total count (TASK_DONE :: rest) = drain total (count + 1) rest := by
  constructor
  · constructor
    · intro he
      exact drain_error_not_taskdone total (y :: rest) count y rest he
    · intro hy
      simp [drain, h, hy]
  · simp [drain, h]

theorem control_channel_single_admissible_witness :
    (drain 1 0 [QUEUE_CLOSED, TASK_DONE]
        = DrainResult.protocolError QUEUE_CLOSED [TASK_DONE] ↔ QUEUE_CLOSED ≠ TASK_DONE)
      ∧ drain 1 0 [TASK_DONE, TASK_DONE] = drain 1 1 [TASK_DONE] :=
  control_channel_single_admissible 1 0 QUEUE_CLOSED [TASK_DONE] (by decide)

/-- C4: in the drain loop any control-channel message that is not exactly
the acknowledgment TASK_DONE aborts the run with the ValueError protocol
violation, and the remainder of the stream is left unconsumed (no further
acknowledgments are consumed after the abort). -/
theorem drain_abort_on_bad_message (total count : Nat) (y : String)
    (rest : List String) (h1 : count < total) (h2 : y ≠ TASK_DONE) :
    drain total count (y :: rest) = DrainResult.protocolError y rest := by
  simp [drain, h1, h2]

theorem drain_abort_on_bad_message_witness :
    drain 3 1 ["bogus", TASK_DONE] = DrainResult.protocolError "bogus" [TASK_DONE] :=
  drain_abort_on_bad_message 3 1 "bogus" [TASK_DONE] (by decide) (by decide)

/-- Python values appearing in keyword-argument dictionaries: the clear
flag is a bool, caller-supplied values are opaque (modelled as strings). -/
inductive PyVal where
  | vBool (b : Bool)
  | vStr (s : String)
deriving DecidableEq, Repr

/-- A Python keyword-argument dictionary, as an ordered association list
(insertion order, which Python dicts preserve). -/
abbrev Kwargs := List (String × PyVal)

/-- An operation a worker performs on its private SQLAlchemy session:
add_all of the results of one transformation application, commit, or
close. -/
inductive SessOp where
  | addAll (ys : List String)
  | commit
  | close
deriving DecidableEq, Repr

/-- Observable state accumulated by one UDF worker process: the ordered
log of operations on its own session, the messages it has put on the
output (control) queue, and the values it has pushed back onto the input
queue. -/
structure WorkerState where
  sessLog : List SessOp
  outMsgs : List String
  inPushes : List String
deriving DecidableEq, Repr

/-- One event observed by the worker loop at in_queue.get(True,
QUEUE_TIMEOUT): either an item arrives, or the bounded wait elapses and
queue.Empty is raised. -/
inductive InEvent where
  | item (x : String)
  | timeout
deriving DecidableEq, Repr

/-- Result of one iteration of the while-loop body of UDF.run: either the
loop continues with an updated state, or it breaks out. -/
inductive StepResult where
  | loop (st : WorkerState)
  | brk (st : WorkerState)
deriving DecidableEq, Repr

/-- Outcome of UDF.run on a finite event trace: finished means the loop
exited and the trailing session.commit(); session.close() ran; running
means the trace was exhausted with the loop still polling. -/
inductive RunOutcome where
  | finished (st : WorkerState)
  | running (st : WorkerState)
deriving DecidableEq, Repr

/-- One iteration of the loop body of UDF.run:

    x = self.in_queue.get(True, QUEUE_TIMEOUT)
    if x == UDF.QUEUE_CLOSED:
        self.in_queue.put(UDF.QUEUE_CLOSED)
        break
    self.session.add_all(y for y in self.apply(x, **self.apply_kwargs))
    self.out_queue.put(UDF.TASK_DONE)
  except Empty: continue

applyF is the subclass transformation self.apply and kw is
self.apply_kwargs. -/
def runStep (applyF : String → Kwargs → List String) (kw : Kwargs)
    (st : WorkerState) : InEvent → StepResult
  | InEvent.timeout => StepResult.loop st
  | InEvent.item x =>
    if x = QUEUE_CLOSED then
      StepResult.brk { st with inPushes := st.inPushes ++ [QUEUE_CLOSED] }
    else
      StepResult.loop { st with
        sessLog := st.sessLog ++ [SessOp.addAll (applyF x kw)],
        outMsgs := st.outMsgs ++ [TASK_DONE] }

/-- UDF.run over a finite trace of input-channel events: iterate runStep
until the loop breaks, then perform session.commit() followed by
session.close(), exactly once each. -/
def udfRun (applyF : String → Kwargs → List String) (kw : Kwargs) :
    WorkerState → List InEvent → RunOutcome
  | st, [] => RunOutcome.running st
  | st, e :: rest =>
    match runStep applyF kw st e with
    | StepResult.loop st2 => udfRun applyF kw st2 rest
    | StepResult.brk st2 =>
        RunOutcome.finished
          { st2 with sessLog := st2.sessLog ++ [SessOp.commit, SessOp.close] }

/-- C2: each worker loop iteration behaves as specified: a receive timeout
silently retries; a genuine task (any item other than the sentinel) is
applied, every produced result is added through the worker's own session,
and exactly one TASK_DONE acknowledgment is put on the control channel;
the sentinel QUEUE_CLOSED is re-pushed onto the input channel and the loop
breaks; and once the loop breaks the worker commits and then closes its
session, each exactly once, ignoring any remaining events. -/
theorem udf_run_iteration_spec (applyF : String → Kwargs → List String)
    (kw : Kwargs) (st st2 : WorkerState) (x : String) (e : InEvent)
    (rest : List InEvent) (hx : x ≠ QUEUE_CLOSED) :
    udfRun applyF kw st (InEvent.timeout :: rest) = udfRun applyF kw st rest
      ∧ runStep applyF kw st (InEvent.item x) =
          StepResult.loop { st with
            sessLog := st.sessLog ++ [SessOp.addAll (applyF x kw)],
            outMsgs := st.outMsgs ++ [TASK_DONE] }
      ∧ runStep applyF kw st (InEvent.item QUEUE_CLOSED) =
          StepResult.brk { st with inPushes := st.inPushes ++ [QUEUE_CLOSED] }
      ∧ (runStep applyF kw st e = StepResult.brk st2 →
          udfRun applyF kw st (e :: rest) =
            RunOutcome.finished
              { st2 with sessLog := st2.sessLog ++ [SessOp.commit, SessOp.close] }) := by
  refine ⟨by simp [udfRun, runStep], by simp [runStep, hx], by simp [runStep], ?_⟩
  intro hbrk
  simp [udfRun, hbrk]

theorem udf_run_iteration_spec_witness :
    runStep (fun x _ => [x]) [] ⟨[], [], []⟩ (InEvent.item QUEUE_CLOSED)
      = StepResult.brk ⟨[], [], [QUEUE_CLOSED]⟩ :=
  (udf_run_iteration_spec (fun x _ => [x]) [] ⟨[], [], []⟩ ⟨[], [], []⟩ "a"
    InEvent.timeout [] (by decide)).2.2.1

/-- C10: shutdown detection on the input channel is by value equality
against the string QUEUECLOSED: the loop body breaks on an item exactly
when the item equals that string, and a worker that receives an enqueued
task whose value equals QUEUECLOSED never applies it: it re-pushes the
sentinel, exits the loop, and commits and closes with no addAll and no
acknowledgment for that item. -/
theorem shutdown_sentinel_by_value (applyF : String → Kwargs → List String)
    (kw : Kwargs) (st : WorkerState) (x : String) (rest : List InEvent) :
    ((∃ st2, runStep applyF kw st (InEvent.item x) = StepResult.brk st2) ↔
        x = "QUEUECLOSED")
      ∧ udfRun applyF kw st (InEvent.item "QUEUECLOSED" :: rest) =
          RunOutcome.finished { st with
            inPushes := st.inPushes ++ ["QUEUECLOSED"],
            sessLog := st.sessLog ++ [SessOp.commit, SessOp.close] } := by
  constructor
  · constructor
    · rintro ⟨st2, h⟩
      by_cases hx : x = QUEUE_CLOSED
      · simpa [QUEUE_CLOSED] using hx
      · simp [runStep, hx] at h
    · intro hx
      subst hx
      refine ⟨{ st with inPushes := st.inPushes ++ ["QUEUECLOSED"] }, ?_⟩
      simp [runStep, QUEUE_CLOSED]
  · simp [udfRun, runStep, QUEUE_CLOSED]

/-- Observable events of one UDFRunner.apply call, in program order:
the self.clear(**kwargs) invocation; progress-bar setup against len(xs);
the ValueError raised by apply_mt when the backend is not PostgreSQL
(terminal: the exception propagates, nothing later runs); construction of
a UDF instance (worker_id none in single-threaded mode, some i for the
pooled worker of that index; applyKwargs is the apply_kwargs dictionary
assigned to the instance, empty in single-threaded mode where kwargs are
passed per call instead); a single-threaded udf.apply(x, **kwargs)
call together with the session.add_all of its results; the single-threaded
final session.commit(); and the feeder enqueuing one parsed tuple on the
input queue. -/
inductive ApplyEvent where
  | clearCall (kwargs : Kwargs)
  | progressSetup (total : Nat)
  | backendError (msg : String)
  | udfConstruct (workerId : Option Nat) (applyKwargs : Kwargs)
  | applyAndAdd (x : String) (kwargs : Kwargs) (results : List String)
  | sessionCommit
  | enqueueTask (x : String)
deriving DecidableEq, Repr

/-- The ValueError message of the backend check in UDFRunner.apply_mt. -/
def backendErrMsg : String := "Fonduer must use PostgreSQL as a database backend."

/-- UDFRunner.apply_st:

    udf = self.udf_class(**self.udf_init_kwargs)
    for x in xs:
        ...progress bar update...
        udf.session.add_all(y for y in udf.apply(x, **kwargs))
    udf.session.commit()

One instance is constructed (its apply_kwargs attribute keeps the UDF
constructor default, the empty dict), then the loop applies it to each
item in order, and the session is committed once at the end. -/
def applyStEvents (applyF : String → Kwargs → List String) (xs : List String)
    (kw : Kwargs) : List ApplyEvent :=
  ApplyEvent.udfConstruct none [] ::
    (xs.foldl (fun acc x => acc ++ [ApplyEvent.applyAndAdd x kw (applyF x kw)]) []
      ++ [ApplyEvent.sessionCommit])

/-- The setup portion of UDFRunner.apply_mt:

    if not _meta.postgres:
        raise ValueError("Fonduer must use PostgreSQL as a database backend.")
    ...
    for i in range(parallelism):
        udf = self.udf_class(in_queue=..., out_queue=..., worker_id=i, ...)
        udf.apply_kwargs = kwargs
        ...
    ...
    in_tuples = ((in_queue, xs, index) for index in range(total_count))
    pool.map_async(func=async_fill_input_queue, iterable=in_tuples)

On a non-PostgreSQL backend the ValueError is raised first, before any
worker is constructed or task enqueued. Otherwise the workers are
constructed (each with apply_kwargs set to kwargs) and the feeder enqueues
every tuple that preprocessor.parse_by_index yields for each index; the
drain loop that follows is modelled separately by drain. -/
def applyMtEvents (postgres : Bool) (parseByIndex : Nat → List String)
    (parallelism totalCount : Nat) (kw : Kwargs) : List ApplyEvent :=
  if postgres = false then
    [ApplyEvent.backendError backendErrMsg]
  else
    ((List.range parallelism).map (fun i => ApplyEvent.udfConstruct (some i) kw))
      ++ ((List.range totalCount).flatMap
            (fun i => (parseByIndex i).map ApplyEvent.enqueueTask))

/-- The line of UDFRunner.apply resolving the pool size:

    parallelism = parallelism if parallelism else self.parallelism

A Python-falsy argument (None, or the int 0) falls back to the value given
at Runner construction. -/
def resolveParallelism (parallelism : Option Int) (selfPar : Int) : Int :=
  match parallelism with
  | none => selfPar
  | some n => if n = 0 then selfPar else n

/-- The execution mode UDFRunner.apply selects. -/
inductive Mode where
  | st
  | mt (p : Int)
deriving DecidableEq, Repr

/-- The mode-selection branch of UDFRunner.apply:

    if parallelism < 2:
        self.apply_st(...)
    else:
        self.apply_mt(...)

applied to the resolved parallelism. -/
def selectMode (selfPar : Int) (parallelism : Option Int) : Mode :=
  let p := resolveParallelism parallelism selfPar
  if p < 2 then Mode.st else Mode.mt p

/-- UDFRunner.apply: optionally call self.clear(**kwargs); set up the
progress bar when requested and xs has a length; resolve the parallelism
and dispatch to apply_st or apply_mt, passing dict(clear=clear, **kwargs)
as the keyword arguments (the call self.apply_st(xs, clear=clear,
**kwargs), resp. apply_mt, merges the clear flag into kwargs). -/
def applyRun (selfPar : Int) (postgres : Bool)
    (applyF : String → Kwargs → List String) (parseByIndex : Nat → List String)
    (xs : List String) (clear : Bool) (parallelism : Option Int)
    (progressBar hasLen : Bool) (kwargs : Kwargs) : List ApplyEvent :=
  (if clear then [ApplyEvent.clearCall kwargs] else [])
    ++ (if progressBar && hasLen then [ApplyEvent.progressSetup xs.length] else [])
    ++ (match selectMode selfPar parallelism with
        | Mode.st => applyStEvents applyF xs (("clear", PyVal.vBool clear) :: kwargs)
        | Mode.mt p =>
            applyMtEvents postgres parseByIndex p.toNat xs.length
              (("clear", PyVal.vBool clear) :: kwargs))

def isClearCall : ApplyEvent → Bool
  | ApplyEvent.clearCall _ => true
  | _ => false

def isConstruct : ApplyEvent → Bool
  | ApplyEvent.udfConstruct _ _ => true
  | _ => false

def isCommit : ApplyEvent → Bool
  | ApplyEvent.sessionCommit => true
  | _ => false

def isBackendError : ApplyEvent → Bool
  | ApplyEvent.backendError _ => true
  | _ => false

def isEnqueue : ApplyEvent → Bool
  | ApplyEvent.enqueueTask _ => true
  | _ => false

theorem foldl_append_singleton (f : String → ApplyEvent) :
    ∀ (xs : List String) (acc : List ApplyEvent),
      xs.foldl (fun acc2 x => acc2 ++ [f x]) acc = acc ++ xs.map f := by
  intro xs
  induction xs with
  | nil => intro acc; simp
  | cons x t ih => intro acc; simp [List.foldl_cons, ih]

theorem applyStEvents_eq (applyF : String → Kwargs → List String)
    (xs : List String) (kw : Kwargs) :
    applyStEvents applyF xs kw =
      ApplyEvent.udfConstruct none [] ::
        (xs.map (fun x => ApplyEvent.applyAndAdd x kw (applyF x kw))
          ++ [ApplyEvent.sessionCommit]) := by
  unfold applyStEvents
  rw [foldl_append_singleton]
  simp

/-- C6: apply_st constructs exactly one transformation instance, applies
it to the items in collection order (the trace is the construction, then
one applyAndAdd per item carrying that item and its produced results, in
input order), and commits exactly once, as the last event, after all items
have been processed. -/
theorem apply_st_order_and_commit (applyF : String → Kwargs → List String)
    (xs : List String) (kw : Kwargs) :
    applyStEvents applyF xs kw =
      ApplyEvent.udfConstruct none [] ::
        (xs.map (fun x => ApplyEvent.applyAndAdd x kw (applyF x kw))
          ++ [ApplyEvent.sessionCommit])
      ∧ (applyStEvents applyF xs kw).countP isConstruct = 1
      ∧ (applyStEvents applyF xs kw).countP isCommit = 1
      ∧ (applyStEvents applyF xs kw).getLast? = some ApplyEvent.sessionCommit := by
  refine ⟨applyStEvents_eq applyF xs kw, ?_, ?_, ?_⟩
  · rw [applyStEvents_eq]
    simp [List.countP_cons, isConstruct, List.countP_eq_zero]
  · rw [applyStEvents_eq]
    simp [List.countP_cons, isCommit, List.countP_append, List.countP_map]
  · rw [applyStEvents_eq, ← List.cons_append]
    exact List.getLast?_concat _

/-- C5: a pooled-mode run against a non-PostgreSQL backend raises the
configuration ValueError as its only event, before any worker is
constructed and before any task is enqueued, while the single-threaded
path apply_st contains no backend check at all (its trace never contains a
backend error, whatever the backend). -/
theorem mt_backend_check_before_workers (parseByIndex : Nat → List String)
    (parallelism totalCount : Nat) (kw : Kwargs)
    (applyF : String → Kwargs → List String) (xs : List String) :
    applyMtEvents false parseByIndex parallelism totalCount kw
        = [ApplyEvent.backendError backendErrMsg]
      ∧ (applyMtEvents false parseByIndex parallelism totalCount kw).countP
          isConstruct = 0
      ∧ (applyMtEvents false parseByIndex parallelism totalCount kw).countP
          isEnqueue = 0
      ∧ (applyStEvents applyF xs kw).countP isBackendError = 0 := by
  refine ⟨by simp [applyMtEvents], ?_, ?_, ?_⟩
  · simp [applyMtEvents, List.countP_cons, isConstruct]
  · simp [applyMtEvents, List.countP_cons, isEnqueue]
  · rw [applyStEvents_eq]
    simp [List.countP_cons, isBackendError, List.countP_append, List.countP_map]

theorem applyStEvents_no_clearCall (applyF : String → Kwargs → List String)
    (xs : List String) (kw : Kwargs) :
    (applyStEvents applyF xs kw).countP isClearCall = 0 := by
  rw [applyStEvents_eq]
  simp [List.countP_cons, isClearCall, List.countP_append, List.countP_map]

theorem applyMtEvents_no_clearCall (postgres : Bool)
    (parseByIndex : Nat → List String) (p n : Nat) (kw : Kwargs) :
    (applyMtEvents postgres parseByIndex p n kw).countP isClearCall = 0 := by
  cases postgres
  · simp [applyMtEvents, List.countP_cons, isClearCall]
  · rw [List.countP_eq_zero]
    intro e he
    simp [applyMtEvents] at he
    rcases he with ⟨i, _, hi⟩ | ⟨i, _, x, _, hx⟩
    · subst hi; simp [isClearCall]
    · subst hx; simp [isClearCall]

/-- C7: a call to apply invokes the invalidation hook self.clear exactly
once when clear is true and exactly zero times when clear is false, and
when invoked it is the very first event of the call, before progress-bar
setup, mode selection and any task processing. -/
theorem clear_called_once_first (selfPar : Int) (postgres : Bool)
    (applyF : String → Kwargs → List String) (parseByIndex : Nat → List String)
    (xs : List String) (clear : Bool) (par : Option Int) (pb hl : Bool)
    (kw : Kwargs) :
    (applyRun selfPar postgres applyF parseByIndex xs clear par pb hl kw).countP
        isClearCall = (if clear then 1 else 0)
      ∧ (clear = true →
          (applyRun selfPar postgres applyF parseByIndex xs clear par pb hl kw).head?
            = some (ApplyEvent.clearCall kw)) := by
  have hmode0 : (match selectMode selfPar par with
      | Mode.st => applyStEvents applyF xs (("clear", PyVal.vBool clear) :: kw)
      | Mode.mt p => applyMtEvents postgres parseByIndex p.toNat xs.length
          (("clear", PyVal.vBool clear) :: kw)).countP isClearCall = 0 := by
    cases selectMode selfPar par with
    | st => exact applyStEvents_no_clearCall applyF xs _
    | mt p => exact applyMtEvents_no_clearCall postgres parseByIndex p.toNat xs.length _
  have hprog : (if pb && hl then [ApplyEvent.progressSetup xs.length]
      else ([] : List ApplyEvent)).countP isClearCall = 0 := by
    split <;> simp [List.countP_cons, isClearCall]
  constructor
  · unfold applyRun
    rw [List.countP_append, List.countP_append, hprog, hmode0]
    cases clear <;> simp [List.countP_cons, isClearCall]
  · intro hc
    subst hc
    simp [applyRun]

theorem clear_called_once_first_witness :
    (applyRun 1 true (fun x _ => [x]) (fun _ => []) [] true none false false []).head?
      = some (ApplyEvent.clearCall []) :=
  (clear_called_once_first 1 true (fun x _ => [x]) (fun _ => []) [] true none false
      false []).2 rfl

/-- C8 counterexample: the pass-through keyword arguments are not
forwarded verbatim. With no caller kwargs at all and clear=false, the
single transformation invocation of a single-threaded run receives a
dictionary holding the added key clear (the call self.apply_st(xs,
clear=clear, **kwargs) merges the clear flag into the kwargs that apply_st
then forwards to udf.apply), so a key is added that the caller never
passed. -/
theorem kwargs_not_forwarded_verbatim :
    applyRun 1 true (fun x _ => [x]) (fun _ => []) ["a"] false none false false []
        = [ApplyEvent.udfConstruct none [],
           ApplyEvent.applyAndAdd "a" [("clear", PyVal.vBool false)] ["a"],
           ApplyEvent.sessionCommit]
      ∧ [("clear", PyVal.vBool false)] ≠ ([] : Kwargs) := by
  exact ⟨rfl, by decide⟩

theorem applyStEvents_applyAndAdd_kwargs (applyF : String → Kwargs → List String)
    (xs : List String) (kw : Kwargs) (x : String) (kw2 : Kwargs) (ys : List String)
    (h : ApplyEvent.applyAndAdd x kw2 ys ∈ applyStEvents applyF xs kw) :
    kw2 = kw := by
  rw [applyStEvents_eq] at h
  simp [List.mem_cons, List.mem_append, List.mem_map] at h
  obtain ⟨a, _, _, hk, _⟩ := h
  exact hk.symm

theorem applyStEvents_no_construct_some (applyF : String → Kwargs → List String)
    (xs : List String) (kw : Kwargs) (i : Nat) (kw2 : Kwargs) :
    ApplyEvent.udfConstruct (some i) kw2 ∉ applyStEvents applyF xs kw := by
  rw [applyStEvents_eq]
  simp

theorem applyMtEvents_construct_kwargs (postgres : Bool)
    (parseByIndex : Nat → List String) (p n : Nat) (kw : Kwargs) (i : Nat)
    (kw2 : Kwargs)
    (h : ApplyEvent.udfConstruct (some i) kw2 ∈ applyMtEvents postgres parseByIndex p n kw) :
    kw2 = kw := by
  cases postgres
  · simp [applyMtEvents] at h
  · simp [applyMtEvents] at h
    obtain ⟨_, _, _, hk⟩ := h
    exact hk.symm

theorem applyMtEvents_no_applyAndAdd (postgres : Bool)
    (parseByIndex : Nat → List String) (p n : Nat) (kw : Kwargs) (x : String)
    (kw2 : Kwargs) (ys : List String) :
    ApplyEvent.applyAndAdd x kw2 ys ∉ applyMtEvents postgres parseByIndex p n kw := by
  cases postgres <;> simp [applyMtEvents]

/-- C8 amended: the caller's pass-through keyword arguments are forwarded
with their keys and values unchanged to every transformation invocation in
both modes, but with exactly one entry added by the Runner: the clear flag
under the key clear (nothing else is added and nothing is removed). -/
theorem kwargs_forwarded_with_clear (selfPar : Int) (postgres : Bool)
    (applyF : String → Kwargs → List String) (parseByIndex : Nat → List String)
    (xs : List String) (clear : Bool) (par : Option Int) (pb hl : Bool)
    (kw : Kwargs) :
    (∀ x kw2 ys,
        ApplyEvent.applyAndAdd x kw2 ys ∈
            applyRun selfPar postgres applyF parseByIndex xs clear par pb hl kw →
          kw2 = ("clear", PyVal.vBool clear) :: kw)
      ∧ (∀ i kw2,
          ApplyEvent.udfConstruct (some i) kw2 ∈
              applyRun selfPar postgres applyF parseByIndex xs clear par pb hl kw →
            kw2 = ("clear", PyVal.vBool clear) :: kw) := by
  constructor
  · intro x kw2 ys h
    unfold applyRun at h
    rw [List.mem_append, List.mem_append] at h
    rcases h with (h | h) | h
    · cases clear <;> simp at h
    · rcases hpb : pb && hl <;> rw [hpb] at h <;> simp at h
    · generalize selectMode selfPar par = m at h
      cases m with
      | st => exact applyStEvents_applyAndAdd_kwargs applyF xs _ x kw2 ys h
      | mt p =>
        exact absurd h (applyMtEvents_no_applyAndAdd postgres parseByIndex
          p.toNat xs.length _ x kw2 ys)
  · intro i kw2 h
    unfold applyRun at h
    rw [List.mem_append, List.mem_append] at h
    rcases h with (h | h) | h
    · cases clear <;> simp at h
    · rcases hpb : pb && hl <;> rw [hpb] at h <;> simp at h
    · generalize selectMode selfPar par = m at h
      cases m with
      | st => exact absurd h (applyStEvents_no_construct_some applyF xs _ i kw2)
      | mt p =>
        exact applyMtEvents_construct_kwargs postgres parseByIndex p.toNat
          xs.length _ i kw2 h

theorem kwargs_forwarded_with_clear_witness :
    [("clear", PyVal.vBool false)] = ("clear", PyVal.vBool false) :: ([] : Kwargs) :=
  (kwargs_forwarded_with_clear 1 true (fun x _ => [x]) (fun _ => []) ["a"] false
      none false false []).1 "a" [("clear", PyVal.vBool false)] ["a"] (by decide)

/-- C9: a Python-falsy explicit parallelism argument (0, like None) makes
apply fall back to the parallelism supplied at Runner construction: the
resolved parallelism is the constructor value, the whole trace equals the
trace of the call with no parallelism argument, and when the constructor
parallelism is at least 2 the explicit argument 0 selects pooled mode, not
single-threaded mode. -/
theorem parallelism_falsy_uses_constructor (selfPar : Int) (postgres : Bool)
    (applyF : String → Kwargs → List String) (parseByIndex : Nat → List String)
    (xs : List String) (clear : Bool) (pb hl : Bool) (kw : Kwargs)
    (h2 : 2 ≤ selfPar) :
    resolveParallelism (some 0) selfPar = selfPar
      ∧ applyRun selfPar postgres applyF parseByIndex xs clear (some 0) pb hl kw
          = applyRun selfPar postgres applyF parseByIndex xs clear none pb hl kw
      ∧ selectMode selfPar (some 0) = Mode.mt selfPar := by
  refine ⟨by simp [resolveParallelism], ?_, ?_⟩
  · simp [applyRun, selectMode, resolveParallelism]
  · have hnl : ¬ selfPar < 2 := not_lt.mpr h2
    simp [selectMode, resolveParallelism, hnl]

theorem parallelism_falsy_witness :
    selectMode 2 (some 0) = Mode.mt 2 :=
  (parallelism_falsy_uses_constructor 2 true (fun x _ => [x]) (fun _ => []) []
      false false false [] (by decide)).2.2
